import Mathlib

/-!
Shallow embedding of `ckanext/doi/lib/metadata.py` (functions
`build_metadata_dict` and `build_xml_dict`).

Python values are modelled by the inductive `Val` (floats are modelled by
exact decimal/integer arithmetic: the only float arithmetic in the source is
`str(float(...))` in the geoLocations block and `int(sum(...) / 1024)` in the
sizes block).  Python exceptions are modelled by `Exc`; fallible code returns
`Except Exc _`.  Python dicts are modelled as association lists
(`List (String × _)`) with first-match lookup and
update-in-place-or-append insertion, matching Python's insertion-order
semantics for the unique-key dictionaries this code constructs.

External collaborators (CKAN configuration, the license register, the locale
resolver `ckan_lang`, the `date_or_none` helper from
`ckanext.doi.lib.helpers` — which is outside the sources under verification —
and the `IDoi` plugin implementations) are gathered into an `Env` record and
treated as pure parameters, per the interface boundary of the specification.

Known modelling approximations, each noted at its definition: `str.isdecimal`
is restricted to ASCII digits; `sorted`/`set` on the subjects/formats fields
is modelled deterministically (first-occurrence deduplication, insertion
sort) and mixed-type orderings beyond str/int raise `TypeError`; the
`ast.literal_eval` grammar covers the literals this extension stores
(strings, ints, `None`, `True`/`False`, lists, string-keyed dicts).
-/

set_option autoImplicit false

namespace CkanextDoi

/-- Model of a Python runtime value as used by `metadata.py`. -/
inductive Val where
  | none
  | bool (b : Bool)
  | int (n : Int)
  | str (s : String)
  | list (xs : List Val)
  | dict (entries : List (String × Val))
  deriving Repr

/-- Model of the Python exceptions raised (and caught) by `metadata.py`.
`doiMetadataException` models `ckanext.doi.lib.errors.DOIMetadataException`. -/
inductive Exc where
  | typeError
  | attributeError
  | valueError
  | indexError
  | keyError (k : String)
  | doiMetadataException (msg : String)
  deriving Repr, DecidableEq

/-- First-match association-list lookup: models Python `dict` lookup (the
dictionaries built by this code have unique keys). -/
def alGet {α : Type} : List (String × α) → String → Option α
  | [], _ => Option.none
  | (k', v) :: t, k => if k' = k then some v else alGet t k

/-- Update-in-place-or-append: models Python `dict` item assignment, which
preserves the insertion position of an existing key. -/
def alSet {α : Type} : List (String × α) → String → α → List (String × α)
  | [], k, v => [(k, v)]
  | (k', v') :: t, k, v => if k' = k then (k, v) :: t else (k', v') :: alSet t k v

/-- A Python dict of `metadata.py`: string keys to values. -/
abbrev PyDict := List (String × Val)

/-- The error map: field key to captured exception. -/
abbrev Errs := List (String × Exc)

/-- `d.get(k)`: `None` when the key is absent. -/
def pyGet (d : PyDict) (k : String) : Val := (alGet d k).getD Val.none

/-- `d.get(k, default)`. -/
def pyGetD (d : PyDict) (k : String) (dflt : Val) : Val := (alGet d k).getD dflt

/-- `k in d`. -/
def alHasKey {α : Type} (d : List (String × α)) (k : String) : Bool :=
  (alGet d k).isSome

/-- Python truthiness of a value (`bool(v)`). -/
def pyTruthy : Val → Bool
  | .none => false
  | .bool b => b
  | .int n => n != 0
  | .str s => !s.isEmpty
  | .list xs => !xs.isEmpty
  | .dict d => !d.isEmpty

/-- Python `v == '<string literal>'` (`False` on any non-string value,
without raising). -/
def pyEqStr (v : Val) (s : String) : Bool :=
  match v with
  | .str t => t == s
  | _ => false

/-- Python `v is None`. -/
def isNoneV : Val → Bool
  | .none => true
  | _ => false

/-- Subscripting with a string key, `v[k]`: `KeyError` on a dict missing the
key, `TypeError` on values that do not support string subscripts. -/
def pySubscr (v : Val) (k : String) : Except Exc Val :=
  match v with
  | .dict d =>
    match alGet d k with
    | some x => .ok x
    | Option.none => .error (.keyError k)
  | _ => .error .typeError

/-- Subscripting with a non-negative integer index, `v[i]`: `IndexError` on
short lists/strings, `KeyError` on dicts (the dicts here are string-keyed, so
an integer key is never present), `TypeError` otherwise. -/
def pyIndex (v : Val) (i : Nat) : Except Exc Val :=
  match v with
  | .list xs =>
    match xs.get? i with
    | some x => .ok x
    | Option.none => .error .indexError
  | .str s =>
    match s.data.get? i with
    | some c => .ok (.str (String.singleton c))
    | Option.none => .error .indexError
  | .dict _ => .error (.keyError (toString i))
  | _ => .error .typeError

/-- Iteration, `for x in v`: lists yield elements, strings yield
one-character strings, dicts yield their keys; `TypeError` otherwise. -/
def pyIter (v : Val) : Except Exc (List Val) :=
  match v with
  | .list xs => .ok xs
  | .str s => .ok (s.data.map (fun c => .str (String.singleton c)))
  | .dict d => .ok (d.map (fun p => .str p.1))
  | _ => .error .typeError

/-- The `.get` method call `v.get(k)`: only dicts have it (`AttributeError`
otherwise); returns `None` for a missing key. -/
def pyGetMethod (v : Val) (k : String) : Except Exc Val :=
  match v with
  | .dict d => .ok (pyGet d k)
  | _ => .error .attributeError

/-- The single-quote character, written via its code point to keep it out of
the source text. -/
def sqChar : Char := Char.ofNat 39

/-- Opening brace character. -/
def lbChar : Char := Char.ofNat 123

/-- Closing brace character. -/
def rbChar : Char := Char.ofNat 125

mutual

/-- `repr(v)`, as `str` renders container elements.  String escaping is not
modelled: the strings this code renders contain no quotes. -/
def pyRepr : Val → String
  | .none => "None"
  | .bool b => if b then "True" else "False"
  | .int n => toString n
  | .str s => String.singleton sqChar ++ s ++ String.singleton sqChar
  | .list xs => "[" ++ String.intercalate ", " (pyReprList xs) ++ "]"
  | .dict d =>
    String.singleton lbChar ++ String.intercalate ", " (pyReprDict d)
      ++ String.singleton rbChar

/-- `repr` of list elements. -/
def pyReprList : List Val → List String
  | [] => []
  | x :: xs => pyRepr x :: pyReprList xs

/-- `repr` of dict items. -/
def pyReprDict : List (String × Val) → List String
  | [] => []
  | (k, x) :: xs =>
    (String.singleton sqChar ++ k ++ String.singleton sqChar ++ ": " ++ pyRepr x)
      :: pyReprDict xs

end

/-- `str(v)` (identity on strings, `repr`-style rendering of containers). -/
def pyStr : Val → String
  | .str s => s
  | v => pyRepr v

/-- Whether a value is hashable (member of a `set`): containers are not. -/
def isHashable : Val → Bool
  | .list _ => false
  | .dict _ => false
  | _ => true

/-- Equality of flat (hashable) values, used for `set` deduplication.
(The Python quirk `1 == True` is not modelled; the tag and format values this
deduplicates are strings.) -/
def flatBeq : Val → Val → Bool
  | .none, .none => true
  | .bool a, .bool b => a == b
  | .int a, .int b => a == b
  | .str a, .str b => a == b
  | _, _ => false

/-- First-occurrence deduplication, modelling `set(...)` construction with a
deterministic order (Python's set iteration order is unspecified; the only
order-sensitive consumer, `sorted`, makes the choice irrelevant for
`subjects`, and no property below depends on the `formats` order). -/
def dedupFlatGo : List Val → List Val → List Val
  | _, [] => []
  | seen, x :: xs =>
    if seen.any (flatBeq x) then dedupFlatGo seen xs
    else x :: dedupFlatGo (x :: seen) xs

/-- Deduplicate a list of flat values. -/
def dedupFlat (l : List Val) : List Val := dedupFlatGo [] l

/-- Insertion into a sorted list of strings. -/
def insertStr (s : String) : List String → List String
  | [] => [s]
  | t :: ts => if s ≤ t then s :: t :: ts else t :: insertStr s ts

/-- Insertion sort on strings, modelling `sorted` on a set of strings. -/
def sortStrs : List String → List String
  | [] => []
  | s :: ss => insertStr s (sortStrs ss)

/-- Insertion into a sorted list of ints. -/
def insertInt (n : Int) : List Int → List Int
  | [] => [n]
  | m :: ms => if n ≤ m then n :: m :: ms else m :: insertInt n ms

/-- Insertion sort on ints. -/
def sortInts : List Int → List Int
  | [] => []
  | n :: ns => insertInt n (sortInts ns)

/-- `sorted(...)` over deduplicated hashable values: a singleton or empty
collection needs no comparison; otherwise all-strings and all-ints sort, and
mixed types raise `TypeError` (Python rejects heterogeneous `<`). -/
def sortedVals (l : List Val) : Except Exc (List Val) :=
  match l with
  | [] => .ok []
  | [v] => .ok [v]
  | _ =>
    if l.all (fun v => match v with | .str _ => true | _ => false) then
      .ok ((sortStrs (l.filterMap (fun v => match v with | .str s => some s | _ => Option.none))).map Val.str)
    else if l.all (fun v => match v with | .int _ => true | _ => false) then
      .ok ((sortInts (l.filterMap (fun v => match v with | .int n => some n | _ => Option.none))).map Val.int)
    else .error .typeError

/-- `s.split(',')` over the character list (Python's non-removing split:
`"".split(',') == ['']`). -/
def splitCommaAux : List Char → List Char → List String
  | [], acc => [String.mk acc.reverse]
  | c :: cs, acc =>
    if c = ',' then String.mk acc.reverse :: splitCommaAux cs []
    else splitCommaAux cs (c :: acc)

/-- `s.split(',')`. -/
def pySplitComma (s : String) : List String := splitCommaAux s.data []

/-- Drop leading spaces. -/
def skipWs : List Char → List Char
  | [] => []
  | c :: cs => if c = ' ' then skipWs cs else c :: cs

/-- Parse the body of a quoted string literal up to the closing quote `q`
(escape sequences are not modelled; the stored literals contain none). -/
def parseStrBody (q : Char) : List Char → Option (String × List Char)
  | [] => Option.none
  | c :: cs =>
    if c = q then some ("", cs)
    else (parseStrBody q cs).map (fun p => (String.singleton c ++ p.1, p.2))

/-- Take a maximal run of decimal digits. -/
def takeDigits : List Char → List Char × List Char
  | [] => ([], [])
  | c :: cs =>
    if c.isDigit then
      let p := takeDigits cs
      (c :: p.1, p.2)
    else ([], c :: cs)

/-- Digits to a natural number. -/
def digitsToNat (ds : List Char) : Nat :=
  ds.foldl (fun acc c => acc * 10 + (c.toNat - 48)) 0

mutual

/-- Fuel-indexed parser for Python literals (`ast.literal_eval` grammar as
used by this extension): `None`/`True`/`False`, integers, quoted strings,
lists, and string-keyed dicts. -/
def parseVal : Nat → List Char → Option (Val × List Char)
  | 0, _ => Option.none
  | fuel + 1, cs =>
    match skipWs cs with
    | [] => Option.none
    | c :: rest =>
      if c = '[' then parseListRest fuel rest []
      else if c = lbChar then parseDictRest fuel rest []
      else if c = sqChar || c = '"' then
        (parseStrBody c rest).map (fun p => (Val.str p.1, p.2))
      else if c = '-' then
        match takeDigits rest with
        | ([], _) => Option.none
        | (ds, rest') => some (Val.int (-(digitsToNat ds : Int)), rest')
      else if c.isDigit then
        match takeDigits (c :: rest) with
        | ([], _) => Option.none
        | (ds, rest') => some (Val.int (digitsToNat ds : Int), rest')
      else
        let ident := (c :: rest).takeWhile Char.isAlpha
        let rest' := (c :: rest).dropWhile Char.isAlpha
        if ident = "None".data then some (Val.none, rest')
        else if ident = "True".data then some (Val.bool true, rest')
        else if ident = "False".data then some (Val.bool false, rest')
        else Option.none

/-- After `[`: parse the remaining items of a list literal. -/
def parseListRest : Nat → List Char → List Val → Option (Val × List Char)
  | 0, _, _ => Option.none
  | fuel + 1, cs, acc =>
    match skipWs cs with
    | [] => Option.none
    | c :: rest =>
      if c = ']' then some (Val.list acc, rest)
      else
        match parseVal fuel (c :: rest) with
        | Option.none => Option.none
        | some (v, cs') =>
          match skipWs cs' with
          | ',' :: rest' => parseListRest fuel rest' (acc ++ [v])
          | ']' :: rest' => some (Val.list (acc ++ [v]), rest')
          | _ => Option.none

/-- After an opening brace: parse the remaining items of a dict literal. -/
def parseDictRest : Nat → List Char → List (String × Val) → Option (Val × List Char)
  | 0, _, _ => Option.none
  | fuel + 1, cs, acc =>
    match skipWs cs with
    | [] => Option.none
    | c :: rest =>
      if c = rbChar then some (Val.dict acc, rest)
      else if c = sqChar || c = '"' then
        match parseStrBody c rest with
        | Option.none => Option.none
        | some (k, cs') =>
          match skipWs cs' with
          | ':' :: cs'' =>
            match parseVal fuel cs'' with
            | Option.none => Option.none
            | some (v, cs''') =>
              match skipWs cs''' with
              | ',' :: rest' => parseDictRest fuel rest' (acc ++ [(k, v)])
              | c' :: rest' =>
                if c' = rbChar then some (Val.dict (acc ++ [(k, v)]), rest')
                else Option.none
              | _ => Option.none
          | _ => Option.none
      else Option.none

end

/-- Parse a complete Python literal from a string. -/
def pyParseLiteral (s : String) : Option Val :=
  match parseVal (s.length + 1) s.data with
  | some (v, rest) => if (skipWs rest).isEmpty then some v else Option.none
  | Option.none => Option.none

/-- `ast.literal_eval(v)`: non-string input and malformed literals raise
(modelled uniformly as `ValueError`; the call sites catch every exception
type, so the distinction is immaterial). -/
def literalEvalV (v : Val) : Except Exc Val :=
  match v with
  | .str s =>
    match pyParseLiteral s with
    | some out => .ok out
    | Option.none => .error .valueError
  | _ => .error .valueError

/-- An `IDoi` plugin implementation: one hook per pipeline stage. -/
structure Plugin where
  build_metadata_dict : PyDict → PyDict → Errs → PyDict × Errs
  build_xml_dict : PyDict → PyDict → PyDict

/-- External collaborators of `metadata.py`, per the spec's interface
boundary: configuration (`ckanext.doi.publisher`, site url), the current
year, the locale resolver, the license register, the `date_or_none` helper
(not part of the verified sources), and the registered plugins. -/
structure Env where
  config_publisher : Val
  now_year : Int
  ckan_lang_result : Except Exc Val
  site_url : String
  license_register : List (String × (String × String))
  date_or_none : Val → Except Exc Val
  plugins : List Plugin

/-- One author entry (lines 55-66 / 125-137): the seven `auth_dict[...]`
subscripts in source evaluation order, assembled into the creators (or, with
`contributorType`, the contributors) entry shape. -/
def personEntryOf (withContribType : Bool) (a : Val) : Except Exc Val := do
  let name ← pySubscr a "author_name"
  let ntype ← pySubscr a "author_name_type"
  let aff ← pySubscr a "author_affiliation"
  let affId ← pySubscr a "author_affiliation_identifier"
  let affIdTy ← pySubscr a "author_affiliation_identifier_type"
  let nId ← pySubscr a "author_identifier"
  let nIdTy ← pySubscr a "author_identifier_type"
  .ok (.dict (("name", name) ::
    (if withContribType then [("contributorType", Val.str "ContactPerson")] else []) ++
    [("nameType", ntype),
     ("affiliation", Val.list [Val.dict
        [("name", aff),
         ("affiliationIdentifier", affId),
         ("affiliationIdentifierScheme", affIdTy)]]),
     ("nameIdentifiers", Val.list [Val.dict
        [("nameIdentifier", nId),
         ("nameIdentifierScheme", nIdTy)]])]))

/-- CREATORS (lines 50-69): `literal_eval` the "author" field; a non-list
result leaves the accumulated (empty) list; the local list is only assigned
on full success, so entry failures discard partial results. -/
def creatorsOf (pkg : PyDict) : Except Exc (List Val) := do
  let al ← literalEvalV (pyGet pkg "author")
  match al with
  | .list l => l.mapM (personEntryOf false)
  | _ => .ok []

/-- CONTRIBUTORS (lines 120-140): same parsing as creators with the fixed
`ContactPerson` role. -/
def contributorsOf (pkg : PyDict) : Except Exc (List Val) := do
  let al ← literalEvalV (pyGet pkg "author")
  match al with
  | .list l => l.mapM (personEntryOf true)
  | _ => .ok []

/-- SUBJECTS (lines 107-117): comma-split "tag_string" plus the "tags"
sequence (dict entries contribute their "name"), empty strings removed,
deduplicated and sorted, each wrapped as a subject entry. -/
def subjectsOf (pkg : PyDict) : Except Exc (List Val) := do
  let ts ← match pyGetD pkg "tag_string" (.str "") with
    | .str s => Except.ok ((pySplitComma s).map Val.str)
    | _ => Except.error Exc.attributeError
  let rawTags ← pyIter (pyGetD pkg "tags" (.list []))
  let mapped ← rawTags.mapM (fun t =>
    match t with
    | .dict d => pySubscr (.dict d) "name"
    | v => .ok v)
  let tags := (ts ++ mapped).filter (fun t => !pyEqStr t "")
  if tags.any (fun t => !isHashable t) then .error .typeError
  else do
    let sorted ← sortedVals (dedupFlat tags)
    .ok (sorted.map (fun t => Val.dict [("subject", t)]))

/-- A single date entry `{'dateType': tag, 'date': d}`. -/
def mkDateEntry (tag : String) (d : Val) : Val :=
  Val.dict [("dateType", .str tag), ("date", d)]

/-- One append into `optional['dates']` with its own `try`: success appends
the entry, failure records the exception in the local `date_errors` dict. -/
def datesStep (st : List Val × Errs) (tag errKey : String) (r : Except Exc Val) :
    List Val × Errs :=
  match r with
  | .ok d => (st.1 ++ [mkDateEntry tag d], st.2)
  | .error e => (st.1, st.2 ++ [(errKey, e)])

/-- DATES (lines 142-172): Created, Updated, and — only when the
"doi_date_published" key is present — Issued; failures go to the local
`date_errors` map, never to `errors`. -/
def datesOf (env : Env) (pkg : PyDict) : List Val × Errs :=
  let s1 := datesStep ([], []) "Created" "created"
    (env.date_or_none (pyGet pkg "metadata_created"))
  let s2 := datesStep s1 "Updated" "updated"
    (env.date_or_none (pyGet pkg "metadata_modified"))
  if alHasKey pkg "doi_date_published" then
    datesStep s2 "Issued" "doi_date_published"
      (env.date_or_none (pyGet pkg "doi_date_published"))
  else s2

/-- ALTERNATE IDENTIFIERS (lines 183-189): permalink from the site url and
`pkg_dict["id"]` (a `KeyError` on a missing id is caught by the caller). -/
def alternateIdsOf (env : Env) (pkg : PyDict) : Except Exc (List Val) := do
  let idv ← pySubscr (.dict pkg) "id"
  .ok [.dict [("alternateIdentifierType", .str "URL"),
              ("alternateIdentifier", .str (env.site_url ++ "/dataset/" ++ pyStr idv))]]

/-- A loop that appends converted entries directly into the optional field's
list (as the relatedIdentifiers and fundingReferences loops do): a failure
keeps the entries appended before it. -/
def appendLoop (entry : Val → Except Exc Val) : List Val → List Val → List Val × Option Exc
  | [], acc => (acc, Option.none)
  | r :: rest, acc =>
    match entry r with
    | .ok e => appendLoop entry rest (acc ++ [e])
    | .error e => (acc, some e)

/-- One relatedIdentifiers entry (lines 196-200), in source evaluation
order. -/
def relEntryOf (rel : Val) : Except Exc Val := do
  let url ← pySubscr rel "related_resource_url"
  let rt ← pySubscr rel "relation_type"
  .ok (.dict [("relatedIdentifier", url),
              ("relatedIdentifierType", .str "URL"),
              ("relationType", rt)])

/-- RELATED IDENTIFIERS (lines 192-202): `literal_eval` the
"related_resource" field; the loop appends in place, so a mid-list failure
keeps earlier entries; a non-list parse leaves the default untouched. -/
def relatedIdsOf (pkg : PyDict) : List Val × Option Exc :=
  match literalEvalV (pyGet pkg "related_resource") with
  | .error e => ([], some e)
  | .ok (.list l) => appendLoop relEntryOf l []
  | .ok _ => ([], Option.none)

/-- `pkg_dict.get('resources', []) or []`. -/
def resourcesListVal (pkg : PyDict) : Val :=
  let v := pyGetD pkg "resources" (.list [])
  if pyTruthy v then v else .list []

/-- `r.get('size') or 0`. -/
def orZeroSize (v : Val) : Val := if pyTruthy v then v else .int 0

/-- `sum(...)` over values: ints (and bools) add, anything else raises
`TypeError`. -/
def sumVals : List Val → Except Exc Int
  | [] => .ok 0
  | v :: rest => do
    let n ← (match v with
      | .int n => Except.ok n
      | .bool b => Except.ok (if b then (1 : Int) else 0)
      | _ => Except.error Exc.typeError)
    let m ← sumVals rest
    .ok (n + m)

/-- `int(a / 1024)`: float division then truncation toward zero, modelled
exactly on the integers. -/
def intDivTrunc (a : Int) (b : Nat) : Int :=
  if 0 ≤ a then Int.ofNat (a.toNat / b) else -Int.ofNat ((-a).toNat / b)

/-- SIZES (lines 207-214): total resource size in bytes, divided by 1024 and
rendered as a single "<n> kb" entry. -/
def sizesOf (pkg : PyDict) : Except Exc (List Val) := do
  let rs ← pyIter (resourcesListVal pkg)
  let sizes ← rs.mapM (fun r => do
    let sv ← pyGetMethod r "size"
    pure (orZeroSize sv))
  let total ← sumVals sizes
  pure [Val.str (toString (intDivTrunc total 1024) ++ " kb")]

/-- FORMATS (lines 218-228): deduplicated truthy resource formats (the
Python `list(set(...))` order is unspecified; first occurrence is used). -/
def formatsOf (pkg : PyDict) : Except Exc (List Val) := do
  let rs ← pyIter (resourcesListVal pkg)
  let fs ← rs.mapM (fun r => pyGetMethod r "format")
  let filtered := fs.filter pyTruthy
  if filtered.any (fun v => !isHashable v) then .error .typeError
  else .ok (dedupFlat filtered)

/-- The license identifier (lines 236-238): "license_id", falling back to
`pkg_dict.get('license', '')` when it `is None`. -/
def licenseIdOf (pkg : PyDict) : Val :=
  let lid := pyGet pkg "license_id"
  if isNoneV lid then pyGetD pkg "license" (.str "") else lid

/-- `Package.get_license_register().get(license_id)`: a string-keyed lookup
returning the license's `(url, id)`. -/
def licenseLookup (env : Env) (v : Val) : Option (String × String) :=
  match v with
  | .str s => alGet env.license_register s
  | _ => Option.none

/-- RIGHTS (lines 236-255): hardcoded SPDX entry for the CC-BY-4.0 literal;
otherwise a register lookup for a non-empty non-None identifier (absent
register entries leave the default empty list); otherwise the raw identifier
under a generic "rights" key. -/
def rightsListOf (env : Env) (pkg : PyDict) : List Val :=
  if pyEqStr (licenseIdOf pkg) "cc-by-4.0-international" then
    [.dict [("rightsUri", .str "https://spdx.org/licenses/CC-BY-4.0.html"),
            ("rightsIdentifier", .str "CC-BY-4.0"),
            ("rightsIdentifierScheme", .str "SPDX")]]
  else if !pyEqStr (licenseIdOf pkg) "" && !isNoneV (licenseIdOf pkg) then
    match licenseLookup env (licenseIdOf pkg) with
    | some (url, lid') => [.dict [("rightsUri", .str url), ("rightsIdentifier", .str lid')]]
    | Option.none => []
  else
    [.dict [("rights", licenseIdOf pkg)]]

/-- DESCRIPTIONS (lines 259-261). -/
def descriptionsOf (pkg : PyDict) : List Val :=
  [Val.dict [("descriptionType", .str "Other"),
             ("description", pyGetD pkg "notes" (.str ""))]]

/-- The geoLocations handlers catch only `(ValueError, KeyError,
IndexError)` (lines 275, 290); everything else propagates. -/
def caughtGeo : Exc → Bool
  | .valueError => true
  | .indexError => true
  | .keyError _ => true
  | _ => false

/-- Normalize a decimal string for `str(float(s))`: optional sign, integer
and/or fractional digits (exponents unmodelled — the inputs are coordinate
literals).  Exact decimal arithmetic stands in for IEEE floats. -/
def floatStrOfDigits (s : String) : Option String :=
  let cs := (((s.data.dropWhile (· = ' ')).reverse.dropWhile (· = ' ')).reverse)
  let (sign, cs) : String × List Char :=
    match cs with
    | '-' :: rest => ("-", rest)
    | '+' :: rest => ("", rest)
    | _ => ("", cs)
  let (intDs, cs) := takeDigits cs
  match cs with
  | [] =>
    if intDs.isEmpty then Option.none
    else some (sign ++ toString (digitsToNat intDs) ++ ".0")
  | '.' :: rest =>
    let (fracDs, cs') := takeDigits rest
    if cs'.isEmpty && !(intDs.isEmpty && fracDs.isEmpty) then
      let frac := (fracDs.reverse.dropWhile (· = '0')).reverse
      some (sign ++ toString (digitsToNat intDs) ++ "."
        ++ (if frac.isEmpty then "0" else String.mk frac))
    else Option.none
  | _ => Option.none

/-- `str(float(v))` (lines 273-274, 286-289): numbers convert; numeric
strings parse (`ValueError` otherwise, which the geo handler catches);
`None`/containers raise `TypeError`, which the geo handler does NOT catch. -/
def pyFloatStr (v : Val) : Except Exc String :=
  match v with
  | .int n => .ok (toString n ++ ".0")
  | .bool b => .ok (if b then "1.0" else "0.0")
  | .str s =>
    match floatStrOfDigits s with
    | some out => .ok out
    | Option.none => .error .valueError
  | _ => .error .typeError

/-- One feature of the `point` branch (lines 269-274): emit an entry only
for geometry type "Point". -/
def geoPointEntry (f : Val) : Except Exc (Option Val) := do
  let g ← pySubscr f "geometry"
  let t ← pySubscr g "type"
  if pyEqStr t "Point" then do
    let coords ← pySubscr g "coordinates"
    let c0 ← pyIndex coords 0
    let lon ← pyFloatStr c0
    let c1 ← pyIndex coords 1
    let lat ← pyFloatStr c1
    pure (some (.dict [("geoLocationPoint", .dict
      [("pointLongitude", .str lon), ("pointLatitude", .str lat)])]))
  else pure Option.none

/-- One feature of the `area` branch (lines 281-289): emit a bounding box
only for geometry type "Polygon", in source evaluation order
(west, east, south, north). -/
def geoAreaEntry (f : Val) : Except Exc (Option Val) := do
  let g ← pySubscr f "geometry"
  let t ← pySubscr g "type"
  if pyEqStr t "Polygon" then do
    let coords ← pySubscr g "coordinates"
    let cl ← pyIndex coords 0
    let p0 ← pyIndex cl 0
    let w0 ← pyIndex p0 0
    let w ← pyFloatStr w0
    let p2 ← pyIndex cl 2
    let e0 ← pyIndex p2 0
    let e ← pyFloatStr e0
    let q0 ← pyIndex cl 0
    let s0 ← pyIndex q0 1
    let s ← pyFloatStr s0
    let p1 ← pyIndex cl 1
    let n0 ← pyIndex p1 1
    let n ← pyFloatStr n0
    pure (some (.dict [("geoLocationBox", .dict
      [("westBoundLongitude", .str w), ("eastBoundLongitude", .str e),
       ("southBoundLatitude", .str s), ("northBoundLatitude", .str n)])]))
  else pure Option.none

/-- The geoLocations feature loop: appends in place; a caught exception
keeps earlier entries and is recorded, any other exception propagates. -/
def geoLoop (entry : Val → Except Exc (Option Val)) :
    List Val → List Val → Except Exc (List Val × Option Exc)
  | [], acc => .ok (acc, Option.none)
  | f :: rest, acc =>
    match entry f with
    | .ok (some e) => geoLoop entry rest (acc ++ [e])
    | .ok Option.none => geoLoop entry rest acc
    | .error e => if caughtGeo e then .ok (acc, some e) else .error e

/-- One geoLocations branch: fetch
`pkg_dict["location_data"]["features"]` and run the feature loop, with the
branch's `except (ValueError, KeyError, IndexError)` semantics. -/
def geoBranch (entry : Val → Except Exc (Option Val)) (pkg : PyDict) :
    Except Exc (List Val × Option Exc) :=
  match (do
    let ld ← pySubscr (.dict pkg) "location_data"
    let fs ← pySubscr ld "features"
    pyIter fs : Except Exc (List Val)) with
  | .error e => if caughtGeo e then .ok ([], some e) else .error e
  | .ok feats => geoLoop entry feats []

/-- GEOLOCATIONS (lines 264-291): dispatch on "location_choice"; any value
other than "point"/"area" (or absence) leaves the default untouched. -/
def geoLocationsOf (pkg : PyDict) : Except Exc (List Val × Option Exc) :=
  let lc := pyGetD pkg "location_choice" Val.none
  if pyEqStr lc "point" then geoBranch geoPointEntry pkg
  else if pyEqStr lc "area" then geoBranch geoAreaEntry pkg
  else .ok ([], Option.none)

/-- One fundingReferences entry (lines 299-305): the identifier type is
fetched first and "Wikidata"/"" normalize to "Other". -/
def funderEntryOf (funder : Val) : Except Exc Val := do
  let idt ← pySubscr funder "funder_identifier_type"
  let idt := if pyEqStr idt "Wikidata" || pyEqStr idt "" then Val.str "Other" else idt
  let fn ← pySubscr funder "funder_name"
  let fid ← pySubscr funder "funder_identifier"
  .ok (.dict [("funderName", fn),
              ("funderIdentifier", fid),
              ("funderIdentifierType", idt)])

/-- FUNDING (lines 294-307): skipped entirely when the raw "funder" value
equals `''`; otherwise `literal_eval` and a loop that appends in place (so a
mid-list failure keeps earlier entries). -/
def fundingRefsOf (pkg : PyDict) : List Val × Option Exc :=
  if pyEqStr (pyGetD pkg "funder" (.str "")) "" then ([], Option.none)
  else
    match literalEvalV (pyGet pkg "funder") with
    | .error e => ([], some e)
    | .ok fl =>
      match pyIter fl with
      | .error e => ([], some e)
      | .ok items => appendLoop funderEntryOf items []

/-- PUBLICATION YEAR (lines 77-83).  The branch condition
`doi_date_published[:4].isdecimal()` is evaluated OUTSIDE any handler: a
present value that is not `None` and not a string raises an uncaught
exception (`TypeError` for unsliceable values; `AttributeError` for a list,
which slices but has no `isdecimal`).  `isdecimal` is modelled over ASCII
digits. -/
def pubYearOf (env : Env) (pkg : PyDict) : Except Exc Val :=
  match pyGet pkg "doi_date_published" with
  | .none => .ok (.int env.now_year)
  | .str s =>
    if !(s.take 4).isEmpty && (s.take 4).data.all Char.isDigit then .ok (.str (s.take 4))
    else .ok (.int env.now_year)
  | .list _ => .error .attributeError
  | _ => .error .typeError

/-- An error-map segment for a field whose whole derivation is wrapped in
one `try`: empty on success, the field's key on failure. -/
def errSeg {α : Type} (k : String) (r : Except Exc α) : Errs :=
  match r with
  | .ok _ => []
  | .error e => [(k, e)]

/-- An error-map segment for a field whose loop records a caught
exception. -/
def errSegO (k : String) (o : Option Exc) : Errs :=
  match o with
  | some e => [(k, e)]
  | Option.none => []

/-- The extractor state at line 310: the merged metadata dict (required keys
then optional keys, in source insertion order), the error map, and the local
`date_errors` map that is never merged into `errors`. -/
structure BaseState where
  md : PyDict
  errors : Errs
  date_errors : Errs

/-- Assemble the `BaseState` from the per-field results (the publicationYear
value and the geoLocations result are passed in by `baseExtract`, which
handles their uncaught-exception paths). -/
def mkBaseState (env : Env) (pkg : PyDict) (pubYearV : Val)
    (geo : List Val × Option Exc) : BaseState :=
  let creatorsR := creatorsOf pkg
  let subjectsR := subjectsOf pkg
  let contributorsR := contributorsOf pkg
  let dateRes := datesOf env pkg
  let languageR := env.ckan_lang_result
  let altIdsR := alternateIdsOf env pkg
  let relRes := relatedIdsOf pkg
  let sizesR := sizesOf pkg
  let formatsR := formatsOf pkg
  let fundRes := fundingRefsOf pkg
  { md := [
      ("creators", match creatorsR with | .ok l => Val.list l | .error _ => Val.list []),
      ("titles", Val.list [Val.dict [("title", pyGet pkg "title")]]),
      ("publisher", env.config_publisher),
      ("publicationYear", pubYearV),
      ("resourceType", pyGet pkg "type"),
      ("subjects", match subjectsR with | .ok l => Val.list l | .error _ => Val.list []),
      ("contributors", match contributorsR with | .ok l => Val.list l | .error _ => Val.list []),
      ("dates", Val.list dateRes.1),
      ("language", match languageR with | .ok v => v | .error _ => Val.str ""),
      ("alternateIdentifiers", match altIdsR with | .ok l => Val.list l | .error _ => Val.list []),
      ("relatedIdentifiers", Val.list relRes.1),
      ("sizes", match sizesR with | .ok l => Val.list l | .error _ => Val.list []),
      ("formats", match formatsR with | .ok l => Val.list l | .error _ => Val.list []),
      ("version", pyGet pkg "version"),
      ("rightsList", Val.list (rightsListOf env pkg)),
      ("descriptions", Val.list (descriptionsOf pkg)),
      ("geoLocations", Val.list geo.1),
      ("fundingReferences", Val.list fundRes.1)],
    errors :=
      errSeg "creators" creatorsR ++ errSeg "subjects" subjectsR
        ++ errSeg "contributors" contributorsR ++ errSeg "language" languageR
        ++ errSeg "alternateIdentifiers" altIdsR
        ++ errSegO "relatedIdentifiers" relRes.2
        ++ errSeg "sizes" sizesR ++ errSeg "formats" formatsR
        ++ errSegO "geoLocations" geo.2
        ++ errSegO "fundingReferences" fundRes.2,
    date_errors := dateRes.2 }

/-- The base extraction, lines 28-310 of `build_metadata_dict`: every
per-field failure is recorded in the error map except the two uncaught
paths (the `publicationYear` branch condition and non-caught geoLocations
exception types), which propagate. -/
def baseExtract (env : Env) (pkg : PyDict) : Except Exc BaseState :=
  match pubYearOf env pkg with
  | .error e => .error e
  | .ok y =>
    match geoLocationsOf pkg with
    | .error e => .error e
    | .ok geo => .ok (mkBaseState env pkg y geo)

/-- The outcome of `build_metadata_dict`: a returned metadata dict (with,
for specification purposes, the final error map and the optional-error
diagnostic message that the logging branch would emit), or a raised
exception. -/
inductive BuildResult where
  | ok (md : PyDict) (errors : Errs) (optionalDiag : Option String)
  | raised (e : Exc)
  deriving Repr

/-- The required keys, in the insertion order of the `required` dict
(lines 35-41). -/
def requiredKeys : List String :=
  ["creators", "titles", "publisher", "publicationYear", "resourceType"]

/-- The optional keys, in the insertion order of the `optional` dict
(lines 89-103). -/
def optionalKeys : List String :=
  ["subjects", "contributors", "dates", "language", "alternateIdentifiers",
   "relatedIdentifiers", "sizes", "formats", "version", "rightsList",
   "descriptions", "geoLocations", "fundingReferences"]

/-- `metadata_dict.get(k) is None` (line 320): absent key or `None` value. -/
def mdIsNone (md : PyDict) (k : String) : Bool :=
  match alGet md k with
  | Option.none => true
  | some .none => true
  | some _ => false

/-- The required-field synthesis loop over a key list (lines 319-321):
`errors[k] = DOIMetadataException('Required field cannot be None')` for every
key whose value `is None` and which has no recorded error. -/
def synthesizeRequiredAux (md : PyDict) : List String → Errs → Errs
  | [], es => es
  | k :: ks, es =>
    synthesizeRequiredAux md ks
      (if mdIsNone md k && (alGet es k).isNone then
        es ++ [(k, Exc.doiMetadataException "Required field cannot be None")]
      else es)

/-- The required-field synthesis loop (lines 319-321). -/
def synthesizeRequired (md : PyDict) (es : Errs) : Errs :=
  synthesizeRequiredAux md requiredKeys es

/-- The aggregated required-error message (lines 325-328): all failed
required keys joined. -/
def requiredMsg (ks : List String) : String :=
  "Could not extract metadata for the following required keys: "
    ++ String.intercalate ", " ks

/-- The optional-error diagnostic message (lines 336-339). -/
def optionalMsg (ks : List String) : String :=
  "Could not extract metadata for the following optional keys: "
    ++ String.intercalate ", " ks

/-- The IDoi extension pass (lines 312-317): each plugin, in registration
order, receives and returns the metadata dict and error map. -/
def afterExtension (env : Env) (pkg : PyDict) (st : BaseState) : PyDict × Errs :=
  env.plugins.foldl
    (fun p plugin => plugin.build_metadata_dict pkg p.1 p.2)
    (st.md, st.errors)

/-- `build_metadata_dict` (lines 22-344): base extraction, extension pass,
required-key synthesis, the aggregated raise when any required key has an
error, and the optional-error diagnostic branch — whose guard tests
`required_errors` (line 335), reproduced faithfully. -/
def buildMetadataDict (env : Env) (pkg : PyDict) : BuildResult :=
  match baseExtract env pkg with
  | .error e => .raised e
  | .ok st =>
    let md1 := (afterExtension env pkg st).1
    let errs1 := (afterExtension env pkg st).2
    let errs2 := synthesizeRequired md1 errs1
    let rerrs := errs2.filter (fun p => requiredKeys.contains p.1)
    if rerrs.length > 0 then
      .raised (.doiMetadataException (requiredMsg (rerrs.map Prod.fst)))
    else
      .ok md1 errs2
        (if rerrs.length > 0 then
          some (optionalMsg
            ((errs2.filter (fun p => optionalKeys.contains p.1)).map Prod.fst))
        else Option.none)

/-- The optional-key inclusion predicate of `build_xml_dict`
(lines 391-394): `v is not None and len(v) > 0`, with a `TypeError` from
`len` (ints, bools) treated as "no value". -/
def hasValue : Val → Bool
  | .str s => !s.isEmpty
  | .list xs => !xs.isEmpty
  | .dict d => !d.isEmpty
  | _ => false

/-- The dates deep copy of `build_xml_dict` (lines 397-403): each entry is
copied with its "date" value stringified; non-dict entries (`.items()`) and
missing "date" keys raise uncaught exceptions. -/
def stringifyDates (v : Val) : Except Exc Val := do
  let items ← pyIter v
  let items' ← items.mapM (fun de =>
    match de with
    | Val.dict es =>
      match alGet es "date" with
      | some d => Except.ok (Val.dict (alSet es "date" (.str (pyStr d))))
      | Option.none => Except.error (Exc.keyError "date")
    | _ => Except.error Exc.attributeError)
  .ok (.list items')

/-- The optional-key loop of `build_xml_dict` (lines 389-405). -/
def processOptional (md : PyDict) : List String → PyDict → Except Exc PyDict
  | [], xml => .ok xml
  | k :: ks, xml =>
    if hasValue (pyGet md k) then
      if k = "dates" then do
        let item ← stringifyDates (pyGet md k)
        processOptional md ks (alSet xml k item)
      else processOptional md ks (alSet xml k (pyGet md k))
    else processOptional md ks xml

/-- The optional keys of `build_xml_dict` (lines 373-387; textually the same
keys as the extractor's `optional` dict). -/
def xmlOptionalKeys : List String :=
  ["subjects", "contributors", "dates", "language", "alternateIdentifiers",
   "relatedIdentifiers", "sizes", "formats", "version", "rightsList",
   "descriptions", "geoLocations", "fundingReferences"]

/-- The required envelope of `build_xml_dict` (lines 359-371): the initial
dict literal followed by the line-371 `creators` overwrite. -/
def xmlBase (md : PyDict) : PyDict :=
  alSet [
    ("creators", Val.list []),
    ("titles", pyGetD md "titles" (Val.list [])),
    ("publisher", pyGet md "publisher"),
    ("publicationYear", Val.str (pyStr (pyGet md "publicationYear"))),
    ("types", Val.dict [("resourceType", pyGet md "resourceType"),
                        ("resourceTypeGeneral", Val.str "Dataset")]),
    ("schemaVersion", Val.str "http://datacite.org/schema/kernel-4")]
    "creators" (pyGetD md "creators" (Val.list []))

/-- `build_xml_dict` (lines 347-410): the required envelope (with
`publicationYear` stringified and the fixed `types` block and schema
version), the optional-key loop, and the plugin pass. -/
def buildXmlDict (env : Env) (md : PyDict) : Except Exc PyDict := do
  let xml2 ← processOptional md xmlOptionalKeys (xmlBase md)
  .ok (env.plugins.foldl (fun x p => p.build_xml_dict md x) xml2)

/-- The returned metadata dict of a build outcome. -/
def resultMd : BuildResult → Option PyDict
  | .ok md _ _ => some md
  | .raised _ => Option.none

/-- The final error map of a successful build outcome. -/
def resultErrs : BuildResult → Option Errs
  | .ok _ es _ => some es
  | .raised _ => Option.none

/-- The optional-error diagnostic of a successful build outcome
(`some Option.none` = returned without emitting the diagnostic). -/
def resultDiag : BuildResult → Option (Option String)
  | .ok _ _ d => some d
  | .raised _ => Option.none

/-! ### General association-list lemmas -/

theorem alGet_append_of_some {α : Type} {l1 l2 : List (String × α)} {k : String}
    {v : α} (h : alGet l1 k = some v) : alGet (l1 ++ l2) k = some v := by
  induction l1 with
  | nil => simp [alGet] at h
  | cons p t ih =>
    obtain ⟨k', v'⟩ := p
    by_cases hk : k' = k
    · simp [alGet, hk] at h ⊢
      exact h
    · simp [alGet, hk] at h ⊢
      exact ih h

theorem alGet_append_of_none {α : Type} {l1 : List (String × α)} (l2 : List (String × α))
    {k : String} (h : alGet l1 k = Option.none) : alGet (l1 ++ l2) k = alGet l2 k := by
  induction l1 with
  | nil => simp [alGet]
  | cons p t ih =>
    obtain ⟨k', v'⟩ := p
    by_cases hk : k' = k
    · simp [alGet, hk] at h
    · simp [alGet, hk] at h ⊢
      exact ih h

theorem alGet_append_none {α : Type} {l1 l2 : List (String × α)} {k : String}
    (h1 : alGet l1 k = Option.none) (h2 : alGet l2 k = Option.none) :
    alGet (l1 ++ l2) k = Option.none := by
  rw [alGet_append_of_none l2 h1]; exact h2

theorem alGet_append_single_ne {α : Type} {l : List (String × α)} {k k' : String}
    (e : α) (hk : k' ≠ k) : alGet (l ++ [(k', e)]) k = alGet l k := by
  cases h : alGet l k with
  | none => rw [alGet_append_of_none _ h]; simp [alGet, hk]
  | some v => exact alGet_append_of_some h

theorem alGet_alSet {α : Type} (l : List (String × α)) (k : String) (v : α)
    (k' : String) :
    alGet (alSet l k v) k' = if k = k' then some v else alGet l k' := by
  induction l with
  | nil => simp [alSet, alGet]
  | cons p t ih =>
    obtain ⟨k0, v0⟩ := p
    by_cases h0 : k0 = k
    · subst h0
      by_cases h1 : k0 = k'
      · subst h1; simp [alSet, alGet]
      · simp [alSet, alGet, h1]
    · by_cases h1 : k0 = k'
      · subst h1
        have : ¬k = k0 := fun he => h0 he.symm
        simp [alSet, alGet, h0, this, ih]
      · simp [alSet, alGet, h0, h1, ih]

theorem alGet_isSome_iff {α : Type} (l : List (String × α)) (k : String) :
    (alGet l k).isSome = true ↔ k ∈ l.map Prod.fst := by
  induction l with
  | nil => simp [alGet]
  | cons p t ih =>
    obtain ⟨k', v'⟩ := p
    by_cases hk : k' = k
    · subst hk; simp [alGet]
    · rw [show alGet ((k', v') :: t) k = alGet t k from by simp [alGet, hk], ih]
      constructor
      · intro h; simp [h]
      · intro h
        rw [List.map_cons, List.mem_cons] at h
        rcases h with h' | h'
        · exact absurd h'.symm hk
        · exact h'

theorem errSeg_get_ne {α : Type} {k k' : String} (r : Except Exc α) (h : k' ≠ k) :
    alGet (errSeg k r) k' = Option.none := by
  cases r with
  | ok a => rfl
  | error e => simp [errSeg, alGet, Ne.symm h]

theorem errSegO_get_ne {k k' : String} (o : Option Exc) (h : k' ≠ k) :
    alGet (errSegO k o) k' = Option.none := by
  cases o with
  | none => rfl
  | some e => simp [errSegO, alGet, Ne.symm h]

/-! ### Inversion of the base extraction -/

theorem baseExtract_inv {env : Env} {pkg : PyDict} {st : BaseState}
    (h : baseExtract env pkg = .ok st) :
    ∃ y geo, pubYearOf env pkg = .ok y ∧ geoLocationsOf pkg = .ok geo ∧
      st = mkBaseState env pkg y geo := by
  unfold baseExtract at h
  cases hy : pubYearOf env pkg with
  | error e => rw [hy] at h; exact absurd h (by simp)
  | ok y =>
    rw [hy] at h
    cases hg : geoLocationsOf pkg with
    | error e => rw [hg] at h; exact absurd h (by simp)
    | ok geo =>
      rw [hg] at h
      exact ⟨y, geo, rfl, rfl, (Except.ok.injEq _ _ ▸ h).symm⟩

theorem mkBaseState_errors_dates (env : Env) (pkg : PyDict) (y : Val)
    (geo : List Val × Option Exc) :
    alGet (mkBaseState env pkg y geo).errors "dates" = Option.none := by
  show alGet (_ ++ _ ++ _ ++ _ ++ _ ++ _ ++ _ ++ _ ++ _ ++ _) "dates" = Option.none
  repeat
    first
    | exact errSeg_get_ne _ (by decide)
    | exact errSegO_get_ne _ (by decide)
    | apply alGet_append_none

/-! ### The required-field synthesis loop -/

theorem synthAux_get_notmem (md : PyDict) (ks : List String) (es : Errs)
    (k : String) (hk : k ∉ ks) :
    alGet (synthesizeRequiredAux md ks es) k = alGet es k := by
  induction ks generalizing es with
  | nil => rfl
  | cons k' ks ih =>
    have hne : k' ≠ k := fun he => hk (by simp [he])
    have hk' : k ∉ ks := fun h => hk (by simp [h])
    unfold synthesizeRequiredAux
    by_cases hc : (mdIsNone md k' && (alGet es k').isNone) = true
    · rw [if_pos hc, ih _ hk', alGet_append_single_ne _ hne]
    · rw [if_neg hc, ih _ hk']

theorem filterMap_congr_mem {α β : Type} (l : List α) (f g : α → Option β)
    (h : ∀ x ∈ l, f x = g x) : l.filterMap f = l.filterMap g := by
  induction l with
  | nil => rfl
  | cons x xs ih =>
    simp only [List.filterMap_cons, h x (by simp)]
    rw [ih (fun x hx => h x (by simp [hx]))]

/-- The synthesis condition as a `filterMap`, with respect to the error map
at loop entry (valid because the required keys are distinct). -/
def synthCond (md : PyDict) (es : Errs) (k : String) : Option (String × Exc) :=
  if mdIsNone md k && (alGet es k).isNone then
    some (k, Exc.doiMetadataException "Required field cannot be None")
  else Option.none

theorem synthAux_eq_append (md : PyDict) (ks : List String) (es : Errs)
    (hnd : ks.Nodup) :
    synthesizeRequiredAux md ks es = es ++ ks.filterMap (synthCond md es) := by
  induction ks generalizing es with
  | nil => simp [synthesizeRequiredAux]
  | cons k ks ih =>
    have hknot : k ∉ ks := (List.nodup_cons.mp hnd).1
    have hnd' : ks.Nodup := (List.nodup_cons.mp hnd).2
    unfold synthesizeRequiredAux
    by_cases hc : (mdIsNone md k && (alGet es k).isNone) = true
    · rw [if_pos hc, ih _ hnd']
      have hcong :
          ks.filterMap (synthCond md (es ++ [(k, Exc.doiMetadataException "Required field cannot be None")]))
            = ks.filterMap (synthCond md es) := by
        apply filterMap_congr_mem
        intro k' hk'
        have hne : k ≠ k' := fun he => hknot (he ▸ hk')
        unfold synthCond
        rw [alGet_append_single_ne _ hne]
      rw [hcong]
      simp only [List.filterMap_cons, synthCond, if_pos hc]
      simp
    · rw [if_neg hc, ih _ hnd']
      simp only [List.filterMap_cons, synthCond, if_neg hc]

/-! ### The two result branches of `build_metadata_dict` -/

/-- The metadata dict after the extension pass. -/
def postMd (env : Env) (pkg : PyDict) (st : BaseState) : PyDict :=
  (afterExtension env pkg st).1

/-- The full error map after the extension pass and required-key
synthesis. -/
def finalErrs (env : Env) (pkg : PyDict) (st : BaseState) : Errs :=
  synthesizeRequired (postMd env pkg st) (afterExtension env pkg st).2

/-- The final error map restricted to required keys (line 323). -/
def requiredErrs (env : Env) (pkg : PyDict) (st : BaseState) : Errs :=
  (finalErrs env pkg st).filter (fun p => requiredKeys.contains p.1)

/-- The final error map restricted to optional keys (line 334). -/
def optionalErrs (env : Env) (pkg : PyDict) (st : BaseState) : Errs :=
  (finalErrs env pkg st).filter (fun p => optionalKeys.contains p.1)

theorem build_eq_of_base_ok (env : Env) (pkg : PyDict) (st : BaseState)
    (h : baseExtract env pkg = .ok st) :
    buildMetadataDict env pkg =
      if (requiredErrs env pkg st).length > 0 then
        .raised (.doiMetadataException
          (requiredMsg ((requiredErrs env pkg st).map Prod.fst)))
      else
        .ok (postMd env pkg st) (finalErrs env pkg st)
          (if (requiredErrs env pkg st).length > 0 then
            some (optionalMsg ((optionalErrs env pkg st).map Prod.fst))
          else Option.none) := by
  unfold buildMetadataDict
  rw [h]
  rfl

theorem afterExtension_of_no_plugins (env : Env) (pkg : PyDict) (st : BaseState)
    (hp : env.plugins = []) : afterExtension env pkg st = (st.md, st.errors) := by
  unfold afterExtension
  rw [hp]
  rfl

/-! ### Concrete environments and inputs used by witnesses and
counterexamples -/

/-- A concrete environment: fixed publisher, year 2026, English locale, one
registered license, identity `date_or_none`, no plugins. -/
def envD : Env := {
  config_publisher := .str "Test Publisher",
  now_year := 2026,
  ckan_lang_result := .ok (.str "en"),
  site_url := "http://site",
  license_register := [("cc-zero", ("http://licenses/cc-zero", "cc-zero"))],
  date_or_none := fun v => .ok v,
  plugins := [] }

/-- A minimal healthy package: every required field resolvable. -/
def pkgA : PyDict :=
  [("type", .str "dataset"), ("author", .str "0"), ("id", .str "p1")]

/-- A package whose "doi_date_published" holds an integer. -/
def pkgDoiInt : PyDict := [("doi_date_published", Val.int 123)]

/-- A package with no "author" and no "type": two required fields fail. -/
def pkgW2 : PyDict := [("id", .str "w2")]

/-- A package whose "related_resource" literal parses to a two-entry list
whose second entry lacks the "relation_type" sub-key. -/
def pkgRelPartial : PyDict :=
  pkgA ++ [("related_resource",
    .str "[\x7b\"related_resource_url\": \"http://a\", \"relation_type\": \"Cites\"\x7d, \x7b\"related_resource_url\": \"http://b\"\x7d]")]

/-- A healthy package with an unparsable "funder" literal. -/
def pkgFunderBad : PyDict := pkgA ++ [("funder", .str "x(")]

/-! ### Claim C1 -/

/-- Counterexample to C1 as stated: a source record whose
"doi_date_published" value is an integer makes `build_metadata_dict` raise a
plain `TypeError` from the line-79 slice `doi_date_published[:4]`, which sits
outside every handler — not the aggregated required-field failure. -/
theorem claim1_counterexample :
    buildMetadataDict envD pkgDoiInt = .raised Exc.typeError := rfl

/-- Claim C1 (amended): whenever the two uncaught paths do not fire — the
`publicationYear` branch condition evaluates without raising (line 79), and
the geoLocations block raises nothing outside its caught
`(ValueError, KeyError, IndexError)` types (lines 264-291) — every per-field
failure is stored in the error map and the only exception
`build_metadata_dict` raises is the aggregated required-field
`DOIMetadataException`. -/
theorem claim1_per_field_isolation (env : Env) (pkg : PyDict) (y : Val)
    (geo : List Val × Option Exc)
    (h1 : pubYearOf env pkg = .ok y) (h2 : geoLocationsOf pkg = .ok geo) :
    (∃ md errs, buildMetadataDict env pkg = .ok md errs Option.none) ∨
    (∃ ks, ks ≠ [] ∧
      buildMetadataDict env pkg = .raised (.doiMetadataException (requiredMsg ks))) := by
  have hbase : baseExtract env pkg = .ok (mkBaseState env pkg y geo) := by
    unfold baseExtract
    rw [h1, h2]
  rw [build_eq_of_base_ok env pkg _ hbase]
  by_cases hr : (requiredErrs env pkg (mkBaseState env pkg y geo)).length > 0
  · right
    rw [if_pos hr]
    refine ⟨_, ?_, rfl⟩
    intro hnil
    rw [List.map_eq_nil_iff] at hnil
    rw [hnil] at hr
    simp at hr
  · left
    rw [if_neg hr, if_neg hr]
    exact ⟨_, _, rfl⟩

/-- Witness for C1 (amended) at the healthy package `pkgA`. -/
theorem claim1_witness :
    (∃ md errs, buildMetadataDict envD pkgA = .ok md errs Option.none) ∨
    (∃ ks, ks ≠ [] ∧
      buildMetadataDict envD pkgA = .raised (.doiMetadataException (requiredMsg ks))) :=
  claim1_per_field_isolation envD pkgA _ _ rfl rfl

/-! ### Claim C9 -/

/-- One attempted date entry: the entry on success, nothing on failure. -/
def attemptDate (tag : String) (r : Except Exc Val) : List Val :=
  match r with
  | .ok d => [mkDateEntry tag d]
  | .error _ => []

/-- Claim C9: the extracted dates list is exactly the Created part, then the
Updated part, then — precisely when the "doi_date_published" key is present
in the source record, regardless of its value — the Issued part; each part
depends only on its own source timestamp, so one entry's failure leaves the
other two unaffected, and at most three entries result. -/
theorem claim9_dates_structure (env : Env) (pkg : PyDict) :
    (datesOf env pkg).1 =
      attemptDate "Created" (env.date_or_none (pyGet pkg "metadata_created"))
        ++ attemptDate "Updated" (env.date_or_none (pyGet pkg "metadata_modified"))
        ++ (if alHasKey pkg "doi_date_published" then
              attemptDate "Issued" (env.date_or_none (pyGet pkg "doi_date_published"))
            else [])
      ∧ (datesOf env pkg).1.length ≤ 3 := by
  unfold datesOf
  cases h1 : env.date_or_none (pyGet pkg "metadata_created") <;>
    cases h2 : env.date_or_none (pyGet pkg "metadata_modified") <;>
      cases hk : alHasKey pkg "doi_date_published" <;>
        simp only [hk, if_true, if_false, Bool.false_eq_true] <;>
          first
          | (constructor
             · simp [datesStep, attemptDate]
             · simp [datesStep, attemptDate])
          | (cases h3 : env.date_or_none (pyGet pkg "doi_date_published") <;>
              constructor <;> simp [datesStep, attemptDate])

/-! ### Claim C10 -/

/-- Claim C10: date derivation failures land in the local `date_errors`
structure only — the error map handed to the extension pass never holds a
"dates" entry, and (absent plugins) neither does the final error map of a
successful build, so a dates failure is invisible to required-field
enforcement and the optional diagnostics. -/
theorem claim10_dates_errors_invisible (env : Env) (pkg : PyDict)
    (st : BaseState) (h : baseExtract env pkg = .ok st) :
    alGet st.errors "dates" = Option.none
      ∧ (env.plugins = [] → ∀ md errs diag,
          buildMetadataDict env pkg = .ok md errs diag →
            alGet errs "dates" = Option.none) := by
  obtain ⟨y, geo, hy, hg, hst⟩ := baseExtract_inv h
  have herr : alGet st.errors "dates" = Option.none := by
    rw [hst]; exact mkBaseState_errors_dates env pkg y geo
  refine ⟨herr, ?_⟩
  intro hp md errs diag hb
  rw [build_eq_of_base_ok env pkg st h] at hb
  have hext : afterExtension env pkg st = (st.md, st.errors) :=
    afterExtension_of_no_plugins env pkg st hp
  by_cases hr : (requiredErrs env pkg st).length > 0
  · rw [if_pos hr] at hb
    exact absurd hb (by simp)
  · rw [if_neg hr] at hb
    have herrs : errs = finalErrs env pkg st :=
      ((BuildResult.ok.injEq _ _ _ _ _ _).mp hb).2.1.symm
    rw [herrs]
    unfold finalErrs synthesizeRequired
    rw [synthAux_get_notmem _ _ _ _ (by decide), hext]
    exact herr

/-- Witness for C10 at the healthy package `pkgA`. -/
theorem claim10_witness :
    ∃ st, baseExtract envD pkgA = .ok st ∧ alGet st.errors "dates" = Option.none :=
  ⟨_, rfl, (claim10_dates_errors_invisible envD pkgA _ rfl).1⟩

/-! ### Claim C2 -/

/-- Claim C2: after the extension pass, extraction raises exactly when some
required key has a recorded error or is `None` without one; the single raised
failure's message joins precisely the failed required keys (all of them, in
error-map order), no record is returned in that case, and otherwise the
record is returned with no exception (and no diagnostic emitted). -/
theorem claim2_required_failure_aggregation (env : Env) (pkg : PyDict)
    (st : BaseState) (h : baseExtract env pkg = .ok st) :
    (∀ k, k ∈ (requiredErrs env pkg st).map Prod.fst ↔
        (k ∈ requiredKeys ∧
          (alGet (afterExtension env pkg st).2 k ≠ Option.none
            ∨ mdIsNone (postMd env pkg st) k = true)))
    ∧ (requiredErrs env pkg st ≠ [] →
        buildMetadataDict env pkg =
          .raised (.doiMetadataException
            (requiredMsg ((requiredErrs env pkg st).map Prod.fst))))
    ∧ (requiredErrs env pkg st = [] →
        buildMetadataDict env pkg =
          .ok (postMd env pkg st) (finalErrs env pkg st) Option.none) := by
  have hnd : requiredKeys.Nodup := by decide
  have hfe : finalErrs env pkg st =
      (afterExtension env pkg st).2
        ++ requiredKeys.filterMap
            (synthCond (postMd env pkg st) (afterExtension env pkg st).2) := by
    unfold finalErrs synthesizeRequired
    exact synthAux_eq_append _ requiredKeys _ hnd
  have hre : requiredErrs env pkg st =
      ((afterExtension env pkg st).2
        ++ requiredKeys.filterMap
            (synthCond (postMd env pkg st) (afterExtension env pkg st).2)).filter
        (fun p => requiredKeys.contains p.1) := by
    unfold requiredErrs
    rw [hfe]
  refine ⟨?_, ?_, ?_⟩
  · intro k
    rw [hre]
    constructor
    · intro hk
      obtain ⟨pr, hpr, hfst⟩ := List.mem_map.mp hk
      have h1 := List.mem_filter.mp hpr
      have hreq : k ∈ requiredKeys := by
        have h2 := h1.2
        rw [hfst] at h2
        simpa using h2
      refine ⟨hreq, ?_⟩
      rcases List.mem_append.mp h1.1 with hin | hin
      · left
        rw [← Option.isSome_iff_ne_none, alGet_isSome_iff]
        exact List.mem_map.mpr ⟨pr, hin, hfst⟩
      · right
        obtain ⟨k', hk', hsc⟩ := List.mem_filterMap.mp hin
        unfold synthCond at hsc
        by_cases hc : (mdIsNone (postMd env pkg st) k'
            && (alGet (afterExtension env pkg st).2 k').isNone) = true
        · rw [if_pos hc] at hsc
          have hpr' : pr = (k', Exc.doiMetadataException "Required field cannot be None") :=
            ((Option.some.injEq _ _).mp hsc).symm
          have hkk : k' = k := by rw [hpr'] at hfst; exact hfst
          rw [← hkk]
          rw [Bool.and_eq_true] at hc
          exact hc.1
        · rw [if_neg hc] at hsc
          cases hsc
    · rintro ⟨hreq, hcase⟩
      have hget : alGet (afterExtension env pkg st).2 k ≠ Option.none
          ∨ (alGet (afterExtension env pkg st).2 k = Option.none
             ∧ mdIsNone (postMd env pkg st) k = true) := by
        by_cases hg : alGet (afterExtension env pkg st).2 k = Option.none
        · rcases hcase with hc | hc
          · exact absurd hg hc
          · exact Or.inr ⟨hg, hc⟩
        · exact Or.inl hg
      rcases hget with hin | ⟨hnone, hmd⟩
      · have hmem : k ∈ (afterExtension env pkg st).2.map Prod.fst :=
          (alGet_isSome_iff _ k).mp (Option.isSome_iff_ne_none.mpr hin)
        obtain ⟨pr, hpr, hfst⟩ := List.mem_map.mp hmem
        refine List.mem_map.mpr ⟨pr, List.mem_filter.mpr ⟨List.mem_append.mpr (.inl hpr), ?_⟩, hfst⟩
        rw [hfst]
        simpa using hreq
      · have hc : (mdIsNone (postMd env pkg st) k
            && (alGet (afterExtension env pkg st).2 k).isNone) = true := by
          rw [Bool.and_eq_true]
          exact ⟨hmd, by simp [hnone]⟩
        have hmem : (k, Exc.doiMetadataException "Required field cannot be None")
            ∈ requiredKeys.filterMap
                (synthCond (postMd env pkg st) (afterExtension env pkg st).2) := by
          refine List.mem_filterMap.mpr ⟨k, hreq, ?_⟩
          unfold synthCond
          rw [if_pos hc]
        refine List.mem_map.mpr ⟨_, List.mem_filter.mpr
          ⟨List.mem_append.mpr (.inr hmem), by simpa using hreq⟩, rfl⟩
  · intro hne
    rw [build_eq_of_base_ok env pkg st h,
      if_pos (by exact List.length_pos.mpr hne)]
  · intro heq
    have hlen : ¬(requiredErrs env pkg st).length > 0 := by
      rw [heq]
      simp
    rw [build_eq_of_base_ok env pkg st h, if_neg hlen, if_neg hlen]

/-- Witness for C2: a package with no "author" and no "type" raises one
aggregated failure naming both failed required keys. -/
theorem claim2_witness :
    buildMetadataDict envD pkgW2 =
      .raised (.doiMetadataException (requiredMsg ["creators", "resourceType"])) :=
  (claim2_required_failure_aggregation envD pkgW2 _ rfl).2.1 (by decide)

/-! ### Lookups into the assembled metadata dict -/

theorem mkBaseState_md_publicationYear (env : Env) (pkg : PyDict) (y : Val)
    (geo : List Val × Option Exc) :
    alGet (mkBaseState env pkg y geo).md "publicationYear" = some y := by
  unfold mkBaseState
  simp [alGet]

theorem mkBaseState_md_rightsList (env : Env) (pkg : PyDict) (y : Val)
    (geo : List Val × Option Exc) :
    alGet (mkBaseState env pkg y geo).md "rightsList" =
      some (Val.list (rightsListOf env pkg)) := by
  unfold mkBaseState
  simp [alGet]

theorem mkBaseState_md_sizes (env : Env) (pkg : PyDict) (y : Val)
    (geo : List Val × Option Exc) :
    alGet (mkBaseState env pkg y geo).md "sizes" =
      some (match sizesOf pkg with
            | .ok l => Val.list l
            | .error _ => Val.list []) := by
  unfold mkBaseState
  simp [alGet]

/-! ### Claim C4 -/

/-- Claim C4: the extracted publicationYear is the first four characters of
a present (string) "doi_date_published" value exactly when those characters
are (nonempty) decimal digits, and the current calendar year otherwise
(absent value, or first four characters not all decimal); this value is what
the extraction stores under "publicationYear". -/
theorem claim4_publication_year (env : Env) (pkg : PyDict) :
    (pyGet pkg "doi_date_published" = Val.none →
      pubYearOf env pkg = .ok (.int env.now_year))
    ∧ (∀ s : String, pyGet pkg "doi_date_published" = .str s →
        ((!(s.take 4).isEmpty && (s.take 4).data.all Char.isDigit) = true →
          pubYearOf env pkg = .ok (.str (s.take 4)))
        ∧ ((!(s.take 4).isEmpty && (s.take 4).data.all Char.isDigit) = false →
          pubYearOf env pkg = .ok (.int env.now_year)))
    ∧ (∀ st y, baseExtract env pkg = .ok st → pubYearOf env pkg = .ok y →
        alGet st.md "publicationYear" = some y) := by
  refine ⟨?_, ?_, ?_⟩
  · intro h
    unfold pubYearOf
    rw [h]
  · intro s h
    constructor
    · intro hc
      unfold pubYearOf
      rw [h]
      exact if_pos hc
    · intro hc
      unfold pubYearOf
      rw [h]
      exact if_neg (by rw [hc]; simp)
  · intro st y hb hy
    obtain ⟨y', geo, hy', hg, hst⟩ := baseExtract_inv hb
    rw [hy] at hy'
    have hyy : y = y' := by injection hy'
    rw [hst, mkBaseState_md_publicationYear, hyy]

/-- A package carrying a dated "doi_date_published". -/
def pkgYear1 : PyDict := [("doi_date_published", .str "2021-05-10")]

/-- A package whose "doi_date_published" has a non-numeric year part. -/
def pkgYear2 : PyDict := [("doi_date_published", .str "abcd-05-10")]

/-- Witness for C4 at the three cases singled out by the claim. -/
theorem claim4_witness :
    pubYearOf envD pkgYear1 = .ok (.str "2021")
    ∧ pubYearOf envD pkgYear2 = .ok (.int 2026)
    ∧ pubYearOf envD ([] : PyDict) = .ok (.int 2026) :=
  ⟨((claim4_publication_year envD pkgYear1).2.1 "2021-05-10" rfl).1 (by decide),
   ((claim4_publication_year envD pkgYear2).2.1 "abcd-05-10" rfl).2 (by decide),
   (claim4_publication_year envD []).1 rfl⟩

/-! ### Claim C7 -/

theorem pyEqStr_false_of_ne {v : Val} {s : String} (h : v ≠ Val.str s) :
    pyEqStr v s = false := by
  cases v with
  | str t =>
    simp only [pyEqStr, beq_eq_false_iff_ne, ne_eq]
    exact fun he => h (congrArg Val.str he)
  | none => rfl
  | bool b => rfl
  | int n => rfl
  | list xs => rfl
  | dict d => rfl

theorem isNoneV_false_of_ne {v : Val} (h : v ≠ Val.none) : isNoneV v = false := by
  cases v with
  | none => exact absurd rfl h
  | bool b => rfl
  | int n => rfl
  | str s => rfl
  | list xs => rfl
  | dict d => rfl

/-- Claim C7: the rightsList precedence on the license identifier
(license_id, falling back to license): the CC-BY-4.0 literal yields the one
hardcoded SPDX entry; otherwise a non-empty non-None identifier yields the
register's url/id when found and the default empty list when not; otherwise
one generic entry with the raw identifier; and this list is what the
extraction stores under "rightsList". -/
theorem claim7_rights_precedence (env : Env) (pkg : PyDict) :
    (licenseIdOf pkg = Val.str "cc-by-4.0-international" →
      rightsListOf env pkg =
        [.dict [("rightsUri", .str "https://spdx.org/licenses/CC-BY-4.0.html"),
                ("rightsIdentifier", .str "CC-BY-4.0"),
                ("rightsIdentifierScheme", .str "SPDX")]])
    ∧ (licenseIdOf pkg ≠ Val.str "cc-by-4.0-international" →
        licenseIdOf pkg ≠ Val.str "" → licenseIdOf pkg ≠ Val.none →
        rightsListOf env pkg =
          (match licenseLookup env (licenseIdOf pkg) with
           | some (url, lid') =>
             [.dict [("rightsUri", .str url), ("rightsIdentifier", .str lid')]]
           | Option.none => []))
    ∧ ((licenseIdOf pkg = Val.str "" ∨ licenseIdOf pkg = Val.none) →
        rightsListOf env pkg = [.dict [("rights", licenseIdOf pkg)]])
    ∧ (∀ st, baseExtract env pkg = .ok st →
        alGet st.md "rightsList" = some (Val.list (rightsListOf env pkg))) := by
  refine ⟨?_, ?_, ?_, ?_⟩
  · intro h
    unfold rightsListOf
    rw [h]
    rfl
  · intro h1 h2 h3
    unfold rightsListOf
    rw [pyEqStr_false_of_ne h1, pyEqStr_false_of_ne h2, isNoneV_false_of_ne h3]
    rfl
  · rintro (h | h) <;>
      (unfold rightsListOf; rw [h]; rfl)
  · intro st hb
    obtain ⟨y, geo, _, _, hst⟩ := baseExtract_inv hb
    rw [hst, mkBaseState_md_rightsList]

/-- A package with the CC-BY-4.0 international license identifier. -/
def pkgCC : PyDict := [("license_id", .str "cc-by-4.0-international")]

/-- Witness for C7: the SPDX branch at `pkgCC` and the raw-identifier branch
at the empty package (whose license identifier falls back to `''`). -/
theorem claim7_witness :
    rightsListOf envD pkgCC =
      [.dict [("rightsUri", .str "https://spdx.org/licenses/CC-BY-4.0.html"),
              ("rightsIdentifier", .str "CC-BY-4.0"),
              ("rightsIdentifierScheme", .str "SPDX")]]
    ∧ rightsListOf envD ([] : PyDict) = [.dict [("rights", Val.str "")]] :=
  ⟨(claim7_rights_precedence envD pkgCC).1 rfl,
   (claim7_rights_precedence envD []).2.2.1 (Or.inl rfl)⟩

/-! ### Claim C8 -/

/-- Specification-side size of one resource: its integer "size", with a
missing or `None` size counted as zero. -/
def sizeOfResource (r : Val) : Int :=
  match r with
  | .dict d =>
    match alGet d "size" with
    | some (.int n) => n
    | _ => 0
  | _ => 0

/-- Shape of a well-formed resource list: dicts whose "size", when present,
is an integer or `None`. -/
def resourcesShapeOk (rs : List Val) : Prop :=
  ∀ r ∈ rs, ∃ d, r = Val.dict d ∧
    (alGet d "size" = Option.none ∨ alGet d "size" = some Val.none ∨
      ∃ n : Int, alGet d "size" = some (Val.int n))

/-- Bind on a succeeded `Except` computation reduces. -/
theorem except_bind_ok {α β : Type} (a : α) (f : α → Except Exc β) :
    (Except.ok a >>= f) = f a := rfl

theorem sizes_compute (rs : List Val) (hshape : resourcesShapeOk rs) :
    ∃ svs,
      (rs.mapM (fun r => do
        let sv ← pyGetMethod r "size"
        pure (orZeroSize sv)) : Except Exc (List Val)) = .ok svs
      ∧ sumVals svs = .ok ((rs.map sizeOfResource).sum) := by
  induction rs with
  | nil => exact ⟨[], rfl, rfl⟩
  | cons r rest ih =>
    obtain ⟨d, rfl, hsz⟩ := hshape r (by simp)
    obtain ⟨svs, hm, hs⟩ := ih (fun r hr => hshape r (by simp [hr]))
    refine ⟨orZeroSize (pyGet d "size") :: svs, ?_, ?_⟩
    · rw [List.mapM_cons, hm]
      simp only [pyGetMethod, except_bind_ok]
      rfl
    · rcases hsz with hcase | hcase | ⟨n, hcase⟩
      · have h1 : orZeroSize (pyGet d "size") = Val.int 0 := by
          simp [orZeroSize, pyGet, hcase, pyTruthy]
        rw [h1]
        simp only [sumVals, hs, except_bind_ok]
        simp [sizeOfResource, hcase]
      · have h1 : orZeroSize (pyGet d "size") = Val.int 0 := by
          simp [orZeroSize, pyGet, hcase, pyTruthy]
        rw [h1]
        simp only [sumVals, hs, except_bind_ok]
        simp [sizeOfResource, hcase]
      · by_cases hn : n = 0
        · subst hn
          have h1 : orZeroSize (pyGet d "size") = Val.int 0 := by
            simp [orZeroSize, pyGet, hcase, pyTruthy]
          rw [h1]
          simp only [sumVals, hs, except_bind_ok]
          simp [sizeOfResource, hcase]
        · have h1 : orZeroSize (pyGet d "size") = Val.int n := by
            simp [orZeroSize, pyGet, hcase, pyTruthy, hn]
          rw [h1]
          simp only [sumVals, hs, except_bind_ok]
          simp [sizeOfResource, hcase]

/-- Claim C8: over a well-formed resource list, the extracted sizes field is
the single entry "<total bytes, divided by 1024 with truncation> kb", where
the total counts missing/None sizes as zero; and this is what the extraction
stores under "sizes". -/
theorem claim8_sizes_sum (pkg : PyDict) (rs : List Val)
    (hres : resourcesListVal pkg = Val.list rs)
    (hshape : resourcesShapeOk rs) :
    sizesOf pkg =
      .ok [Val.str (toString (intDivTrunc ((rs.map sizeOfResource).sum) 1024) ++ " kb")]
    ∧ ∀ (env : Env) (st : BaseState), baseExtract env pkg = .ok st →
        alGet st.md "sizes" =
          some (Val.list
            [Val.str (toString (intDivTrunc ((rs.map sizeOfResource).sum) 1024) ++ " kb")]) := by
  obtain ⟨svs, hm, hs⟩ := sizes_compute rs hshape
  have hrw : sizesOf pkg = (do
      let sizes ← rs.mapM (fun r => do
        let sv ← pyGetMethod r "size"
        pure (orZeroSize sv))
      let total ← sumVals sizes
      pure [Val.str (toString (intDivTrunc total 1024) ++ " kb")] : Except Exc (List Val)) := by
    unfold sizesOf
    rw [hres]
    rfl
  have hmain : sizesOf pkg =
      .ok [Val.str (toString (intDivTrunc ((rs.map sizeOfResource).sum) 1024) ++ " kb")] := by
    rw [hrw, hm]
    simp only [except_bind_ok]
    rw [hs]
    simp only [except_bind_ok]
    rfl
  refine ⟨hmain, ?_⟩
  intro env st hb
  obtain ⟨y, geo, _, _, hst⟩ := baseExtract_inv hb
  rw [hst, mkBaseState_md_sizes, hmain]

/-- A package whose resources carry sizes 1024, 2048 and `None`. -/
def pkgSizes : PyDict :=
  [("resources", .list [.dict [("size", .int 1024)], .dict [("size", .int 2048)],
    .dict [("size", Val.none)]])]

/-- Witness for C8: resources sized `[1024, 2048, None]` yield `"3 kb"`. -/
theorem claim8_witness : sizesOf pkgSizes = .ok [Val.str "3 kb"] :=
  (claim8_sizes_sum pkgSizes _ rfl (by
    intro r hr
    simp only [List.mem_cons, List.not_mem_nil, or_false] at hr
    rcases hr with rfl | rfl | rfl
    · exact ⟨_, rfl, Or.inr (Or.inr ⟨1024, rfl⟩)⟩
    · exact ⟨_, rfl, Or.inr (Or.inr ⟨2048, rfl⟩)⟩
    · exact ⟨_, rfl, Or.inr (Or.inl rfl)⟩)).1

/-! ### Claim C3 -/

/-- The relatedIdentifiers entry built from the first (complete) entry of
`pkgRelPartial`'s "related_resource" literal. -/
def relEntryA : Val :=
  Val.dict [("relatedIdentifier", .str "http://a"),
            ("relatedIdentifierType", .str "URL"),
            ("relationType", .str "Cites")]

/-- Counterexample to C3 as stated: a "related_resource" literal whose second
entry lacks the "relation_type" sub-key leaves the first converted entry in
the returned record — a partial list, not the default empty value — even
though the failure is recorded under the field's key and the build
succeeds. -/
theorem claim3_counterexample :
    (resultMd (buildMetadataDict envD pkgRelPartial)).bind
        (fun m => alGet m "relatedIdentifiers") = some (Val.list [relEntryA])
    ∧ (resultErrs (buildMetadataDict envD pkgRelPartial)).bind
        (fun es => alGet es "relatedIdentifiers") = some (Exc.keyError "relation_type") :=
  ⟨rfl, rfl⟩

/-- Claim C3 (amended): when the stringified list fails to parse
("related_resource", or a non-empty "funder"), the optional field keeps its
default empty value with the failure recorded under its key; but these
loops append converted entries in place, so when the literal parses and an
entry fails partway (e.g. a missing sub-key), the entries converted before
the failure are kept — a partial list — alongside the recorded failure. -/
theorem claim3_malformed_optional_fields :
    (∀ (pkg : PyDict) (e : Exc),
      literalEvalV (pyGet pkg "related_resource") = .error e →
        relatedIdsOf pkg = ([], some e))
    ∧ (∀ (pkg : PyDict) (e : Exc),
        pyEqStr (pyGetD pkg "funder" (.str "")) "" = false →
        literalEvalV (pyGet pkg "funder") = .error e →
          fundingRefsOf pkg = ([], some e))
    ∧ (∀ (pkg : PyDict) (r1 r2 e1 : Val) (exc : Exc),
        literalEvalV (pyGet pkg "related_resource") = .ok (.list [r1, r2]) →
        relEntryOf r1 = .ok e1 → relEntryOf r2 = .error exc →
          relatedIdsOf pkg = ([e1], some exc)) := by
  refine ⟨?_, ?_, ?_⟩
  · intro pkg e h
    unfold relatedIdsOf
    rw [h]
  · intro pkg e h1 h2
    unfold fundingRefsOf
    rw [if_neg (by rw [h1]; simp), h2]
  · intro pkg r1 r2 e1 exc hparse h1 h2
    unfold relatedIdsOf
    rw [hparse]
    show appendLoop relEntryOf [r1, r2] [] = ([e1], some exc)
    simp only [appendLoop, h1, h2]
    rfl

/-- Witness for C3 (amended): unparsable "related_resource" and "funder"
literals leave both fields at their default empty value with the failure
recorded. -/
theorem claim3_witness :
    relatedIdsOf [("related_resource", .str "x(")] = ([], some Exc.valueError)
    ∧ fundingRefsOf [("funder", .str "x(")] = ([], some Exc.valueError) :=
  ⟨claim3_malformed_optional_fields.1 [("related_resource", .str "x(")] _ rfl,
   claim3_malformed_optional_fields.2.1 [("funder", .str "x(")] _ rfl rfl⟩

/-! ### Claim C5 -/

/-- Claim C5 is contradicted by the code: the optional-error diagnostic
branch (lines 334-343) is guarded by `len(required_errors) > 0` (line 335)
instead of `len(optional_errors) > 0`; past the line-332 raise that count is
always zero, so the diagnostic is never emitted.  At this failing input the
build succeeds with a recorded "fundingReferences" error and no diagnostic,
while the two true parts of the claim also show concretely: the optional
error does not abort, and the field keeps its default empty value. -/
theorem claim5_optional_diagnostics_dead_branch :
    resultDiag (buildMetadataDict envD pkgFunderBad) = some Option.none
    ∧ (resultErrs (buildMetadataDict envD pkgFunderBad)).bind
        (fun es => alGet es "fundingReferences") = some Exc.valueError
    ∧ (resultMd (buildMetadataDict envD pkgFunderBad)).bind
        (fun m => alGet m "fundingReferences") = some (Val.list []) :=
  ⟨rfl, rfl, rfl⟩

/-! ### Claim C6 -/

/-- Bind on a failed `Except` computation reduces. -/
theorem except_bind_error {α β : Type} (e : Exc) (f : α → Except Exc β) :
    ((Except.error e : Except Exc α) >>= f) = .error e := rfl

/-- A well-formed internal "dates" value: when it counts as having a value,
it is a list of dicts each carrying a "date" key (the shape the extractor
produces; anything else makes the line-400 `.items()`/`['date']` access
raise). -/
def datesFieldOk (md : PyDict) : Prop :=
  hasValue (pyGet md "dates") = true →
    ∃ l, pyGet md "dates" = Val.list l ∧
      ∀ e ∈ l, ∃ es, e = Val.dict es ∧ (alGet es "date").isSome

theorem stringifyDates_ok (l : List Val)
    (h : ∀ e ∈ l, ∃ es, e = Val.dict es ∧ (alGet es "date").isSome) :
    ∃ l', stringifyDates (.list l) = .ok (.list l') := by
  have hmap : ∃ items', (l.mapM (fun de =>
      match de with
      | Val.dict es =>
        match alGet es "date" with
        | some d => Except.ok (Val.dict (alSet es "date" (.str (pyStr d))))
        | Option.none => Except.error (Exc.keyError "date")
      | _ => Except.error Exc.attributeError) : Except Exc (List Val)) = .ok items' := by
    induction l with
    | nil => exact ⟨[], rfl⟩
    | cons e rest ih =>
      obtain ⟨es, rfl, hdate⟩ := h e (by simp)
      obtain ⟨items', hi⟩ := ih (fun e he => h e (by simp [he]))
      obtain ⟨d, hd⟩ := Option.isSome_iff_exists.mp hdate
      refine ⟨Val.dict (alSet es "date" (.str (pyStr d))) :: items', ?_⟩
      rw [List.mapM_cons, hi]
      simp only [hd, except_bind_ok]
      rfl
  obtain ⟨items', hi⟩ := hmap
  refine ⟨items', ?_⟩
  unfold stringifyDates
  rw [show (pyIter (Val.list l) : Except Exc (List Val)) = .ok l from rfl,
    except_bind_ok, hi, except_bind_ok]

theorem processOptional_ok (md : PyDict) (hd : datesFieldOk md) :
    ∀ (ks : List String) (xml : PyDict),
      ∃ xml', processOptional md ks xml = .ok xml' := by
  intro ks
  induction ks with
  | nil => exact fun xml => ⟨xml, rfl⟩
  | cons k ks ih =>
    intro xml
    unfold processOptional
    by_cases hv : hasValue (pyGet md k) = true
    · rw [if_pos hv]
      by_cases hk : k = "dates"
      · rw [if_pos hk]
        subst hk
        obtain ⟨l, hl, hentries⟩ := hd hv
        obtain ⟨l', hsd⟩ := stringifyDates_ok l hentries
        rw [hl, hsd, except_bind_ok]
        exact ih _
      · rw [if_neg hk]
        exact ih _
    · rw [if_neg hv]
      exact ih _

theorem processOptional_get_notmem (md : PyDict) (ks : List String) (k : String) :
    ∀ (xml xml' : PyDict), processOptional md ks xml = .ok xml' → k ∉ ks →
      alGet xml' k = alGet xml k := by
  induction ks with
  | nil =>
    intro xml xml' h _
    unfold processOptional at h
    cases h
    rfl
  | cons k' ks ih =>
    intro xml xml' h hk
    have hne : k ≠ k' := fun he => hk (by simp [he])
    have hk2 : k ∉ ks := fun hm => hk (by simp [hm])
    unfold processOptional at h
    by_cases hv : hasValue (pyGet md k') = true
    · rw [if_pos hv] at h
      by_cases hdk : k' = "dates"
      · rw [if_pos hdk] at h
        cases hsd : stringifyDates (pyGet md k') with
        | error e =>
          rw [hsd, except_bind_error] at h
          exact absurd h (by simp)
        | ok item =>
          rw [hsd, except_bind_ok] at h
          rw [ih _ _ h hk2, alGet_alSet, if_neg (fun he => hne he.symm)]
      · rw [if_neg hdk] at h
        rw [ih _ _ h hk2, alGet_alSet, if_neg (fun he => hne he.symm)]
    · rw [if_neg hv] at h
      exact ih _ _ h hk2

theorem processOptional_get_mem (md : PyDict) (ks : List String) (k : String) :
    ∀ (xml xml' : PyDict), processOptional md ks xml = .ok xml' → k ∈ ks →
      ks.Nodup →
      (hasValue (pyGet md k) = false → alGet xml' k = alGet xml k)
      ∧ (hasValue (pyGet md k) = true →
          (k = "dates" → ∃ item, stringifyDates (pyGet md k) = .ok item
            ∧ alGet xml' k = some item)
          ∧ (k ≠ "dates" → alGet xml' k = some (pyGet md k))) := by
  induction ks with
  | nil =>
    intro xml xml' _ hk _
    exact absurd hk (by simp)
  | cons k' ks ih =>
    intro xml xml' h hk hnd
    have hnd' : ks.Nodup := (List.nodup_cons.mp hnd).2
    by_cases hkk : k = k'
    · subst hkk
      have hknot : k ∉ ks := (List.nodup_cons.mp hnd).1
      unfold processOptional at h
      by_cases hv : hasValue (pyGet md k) = true
      · rw [if_pos hv] at h
        by_cases hdk : k = "dates"
        · rw [if_pos hdk] at h
          cases hsd : stringifyDates (pyGet md k) with
          | error e =>
            rw [hsd, except_bind_error] at h
            exact absurd h (by simp)
          | ok item =>
            rw [hsd, except_bind_ok] at h
            have hrest := processOptional_get_notmem md ks k _ _ h hknot
            constructor
            · intro hvf
              rw [hvf] at hv
              cases hv
            · intro _
              refine ⟨fun _ => ⟨item, rfl, ?_⟩, fun hne => absurd hdk hne⟩
              rw [hrest, alGet_alSet, if_pos rfl]
        · rw [if_neg hdk] at h
          have hrest := processOptional_get_notmem md ks k _ _ h hknot
          constructor
          · intro hvf
            rw [hvf] at hv
            cases hv
          · intro _
            refine ⟨fun hd => absurd hd hdk, fun _ => ?_⟩
            rw [hrest, alGet_alSet, if_pos rfl]
      · rw [if_neg hv] at h
        have hrest := processOptional_get_notmem md ks k _ _ h hknot
        constructor
        · intro _
          exact hrest
        · intro hvt
          exact absurd hvt hv
    · have hkmem : k ∈ ks := by
        rcases List.mem_cons.mp hk with h' | h'
        · exact absurd h' hkk
        · exact h'
      unfold processOptional at h
      by_cases hv : hasValue (pyGet md k') = true
      · rw [if_pos hv] at h
        by_cases hdk : k' = "dates"
        · rw [if_pos hdk] at h
          cases hsd : stringifyDates (pyGet md k') with
          | error e =>
            rw [hsd, except_bind_error] at h
            exact absurd h (by simp)
          | ok item =>
            rw [hsd, except_bind_ok] at h
            have hres := ih _ _ h hkmem hnd'
            rwa [alGet_alSet, if_neg (fun he => hkk he.symm)] at hres
        · rw [if_neg hdk] at h
          have hres := ih _ _ h hkmem hnd'
          rwa [alGet_alSet, if_neg (fun he => hkk he.symm)] at hres
      · rw [if_neg hv] at h
        exact ih _ _ h hkmem hnd'

theorem xmlBase_get_optional (md : PyDict) (k : String)
    (hk : k ∈ xmlOptionalKeys) : alGet (xmlBase md) k = Option.none := by
  simp only [xmlOptionalKeys, List.mem_cons, List.not_mem_nil, or_false] at hk
  rcases hk with rfl | rfl | rfl | rfl | rfl | rfl | rfl | rfl | rfl | rfl | rfl | rfl | rfl <;>
    rfl

theorem xmlBase_get_schemaVersion (md : PyDict) :
    alGet (xmlBase md) "schemaVersion" =
      some (Val.str "http://datacite.org/schema/kernel-4") := rfl

theorem xmlBase_get_types (md : PyDict) :
    alGet (xmlBase md) "types" =
      some (Val.dict [("resourceType", pyGet md "resourceType"),
                      ("resourceTypeGeneral", Val.str "Dataset")]) := rfl

theorem xmlBase_get_publicationYear (md : PyDict) :
    alGet (xmlBase md) "publicationYear" =
      some (Val.str (pyStr (pyGet md "publicationYear"))) := rfl

/-- Claim C6: for every internal metadata record (with the dates field in
the shape the extractor produces, and before any plugin mutation), the
produced document omits every optional key without a value (`None`, zero
length, or no length concept), includes every optional key with a value
(dates in stringified copy, the others unchanged), and always carries the
schema version, the `types` block pairing the resolved resourceType with the
constant "Dataset" category, and a string publicationYear. -/
theorem claim6_xml_projection (env : Env) (md : PyDict)
    (hp : env.plugins = []) (hd : datesFieldOk md) :
    ∃ xml, buildXmlDict env md = .ok xml
      ∧ (∀ k ∈ xmlOptionalKeys, hasValue (pyGet md k) = false →
          alGet xml k = Option.none)
      ∧ (∀ k ∈ xmlOptionalKeys, hasValue (pyGet md k) = true →
          (k ≠ "dates" → alGet xml k = some (pyGet md k))
          ∧ (k = "dates" → ∃ item, stringifyDates (pyGet md k) = .ok item
              ∧ alGet xml k = some item))
      ∧ alGet xml "schemaVersion" = some (Val.str "http://datacite.org/schema/kernel-4")
      ∧ alGet xml "types" = some (Val.dict [("resourceType", pyGet md "resourceType"),
          ("resourceTypeGeneral", Val.str "Dataset")])
      ∧ alGet xml "publicationYear" = some (Val.str (pyStr (pyGet md "publicationYear"))) := by
  obtain ⟨xml2, hx2⟩ := processOptional_ok md hd xmlOptionalKeys (xmlBase md)
  refine ⟨xml2, ?_, ?_, ?_, ?_, ?_, ?_⟩
  · unfold buildXmlDict
    rw [hx2, except_bind_ok, hp]
    rfl
  · intro k hk hv
    have h1 := (processOptional_get_mem md xmlOptionalKeys k _ _ hx2 hk (by decide)).1 hv
    rw [h1, xmlBase_get_optional md k hk]
  · intro k hk hv
    have h2 := (processOptional_get_mem md xmlOptionalKeys k _ _ hx2 hk (by decide)).2 hv
    exact ⟨h2.2, h2.1⟩
  · rw [processOptional_get_notmem md xmlOptionalKeys "schemaVersion" _ _ hx2 (by decide),
      xmlBase_get_schemaVersion]
  · rw [processOptional_get_notmem md xmlOptionalKeys "types" _ _ hx2 (by decide),
      xmlBase_get_types]
  · rw [processOptional_get_notmem md xmlOptionalKeys "publicationYear" _ _ hx2 (by decide),
      xmlBase_get_publicationYear]

/-- A small internal metadata record for the C6 witness. -/
def mdXml : PyDict :=
  [("publicationYear", .int 2021), ("resourceType", .str "dataset"),
   ("language", .str "en")]

/-- Witness for C6 at a concrete internal record. -/
theorem claim6_witness : ∃ xml, buildXmlDict envD mdXml = .ok xml :=
  Exists.imp (fun _ h => h.1)
    (claim6_xml_projection envD mdXml rfl (fun hv => absurd hv (by decide)))

end CkanextDoi
